import Mathlib

/-
Shallow embedding of the rendering host in src/src/rltk.rs (the crate's
only source file): the `Rltk` structure, its registries, the pass-through
`Console` implementation, event draining, and the per-iteration body of
`main_loop`, together with theorems settling the specification claims.

Modelling conventions:
  - `usize`, `u32`, `u64`, `u128` counters are modelled as `Nat` (none of
    the verified claims involve wrap-around arithmetic on them);
  - the `f32` fields `fps` and `frame_time_ms` are modelled as `Rat`: the
    claims concern which operands enter the division / cast, not `f32`
    rounding;
  - a Rust panic (here only the slice `index out of bounds` panic raised
    by `v[i]`) is modelled as the `Except.error` branch carrying a `Panic`
    value: a panic is defined behaviour that unwinds and terminates the
    thread, as opposed to undefined memory access;
  - `Box<Console>` (a trait object) is modelled as a method table
    `ConsoleImpl σ` paired with a surface state of type `σ`;
  - the ambient OpenGL state touched by `gl::Viewport` is made explicit as
    a `GLState` field; `gl::ClearColor`/`gl::Clear`, buffer swapping and
    event polling are pure external effects and appear only in the
    per-iteration step trace;
  - the `glfw`/window handles of `Rltk` are external resources carrying no
    state any claim observes, and are omitted from the structure.
-/

namespace RltkSpec

/-- Opaque GPU font resource handle (`font::Font` lives outside src/; the
host only stores and passes these). -/
structure Font where
  fid : Nat
deriving DecidableEq, Repr

/-- Opaque compiled shader program handle (`Shader` lives outside src/). -/
structure Shader where
  sid : Nat
deriving DecidableEq, Repr

/-- Opaque colour value (`RGB` lives outside src/; this layer never
inspects colours, only forwards them). -/
structure RGB where
  code : Nat
deriving DecidableEq, Repr

/-- A Rust panic observed by this layer: the slice indexing panic
`index out of bounds: the len is .. but the index is ..` raised by
`v[i]` with `i >= v.len()`. A panic is a defined, reportable error (it is
not undefined behaviour), but it unwinds and terminates the executing
thread: the program crashes rather than receiving a result value. -/
inductive Panic where
  | indexOutOfBounds (index : Nat) (len : Nat)
deriving DecidableEq, Repr

/-- Method table of a `Console` trait object. The trait itself is declared
outside src/; the capability set is the one the spec lists for Console
Surface implementations: clear, clear-with-background, print,
print-with-color, query-cell, report-dirty (`is_dirty`),
rebuild-geometry, draw. `σ` is the surface state the boxed object owns. -/
structure ConsoleImpl (σ : Type) where
  is_dirty : σ → Bool
  rebuild_geometry : σ → σ
  gl_draw : σ → Font → Shader → σ
  at' : σ → Int → Int → Nat
  cls : σ → σ
  cls_bg : σ → RGB → σ
  print : σ → Int → Int → String → σ
  print_color : σ → Int → Int → RGB → RGB → String → σ

/-- Modelled from the spec: the `Console::rebuild_if_dirty` method that
each Console Surface implementation (outside src/) provides. Per §4.1/§8
of the spec, it invokes rebuild-geometry exactly when `is-dirty()` reports
true, and otherwise leaves the surface untouched. -/
def ConsoleImpl.rebuild_if_dirty {σ : Type} (c : ConsoleImpl σ) (s : σ) : σ :=
  if c.is_dirty s then c.rebuild_geometry s else s

/-- `DisplayConsole` from rltk.rs: one owned console surface (the Rust
field `console : Box<Console>` splits into the method table
`console_impl` and the owned state `console_state`) plus weak integer
indices into the host's shader and font registries. -/
structure DisplayConsole (σ : Type) where
  console_impl : ConsoleImpl σ
  console_state : σ
  shader_index : Nat
  font_index : Nat

/-- The ambient OpenGL state this layer mutates: the viewport rectangle
set by `gl::Viewport(x, y, width, height)`. -/
structure GLState where
  viewport : Int × Int × Int × Int
deriving DecidableEq, Repr

/-- The `Rltk` host structure from rltk.rs (window/context/event handles
omitted as external resources; the ambient GL viewport made explicit). -/
structure Rltk (σ : Type) where
  width_pixels : Nat
  height_pixels : Nat
  fonts : List Font
  shaders : List Shader
  consoles : List (DisplayConsole σ)
  fps : Rat
  frame_time_ms : Rat
  active_console : Nat
  gl : GLState

/-- `Rltk::init_raw`: window/context creation and shader compilation are
external (fatal on failure, so the successful path is the only one
reaching this constructor); `vs` is the one shader compiled at startup
and `gl0` the ambient GL state the platform leaves behind. -/
def init_raw (σ : Type) (width_pixels height_pixels : Nat) (vs : Shader)
    (gl0 : GLState) : Rltk σ :=
  { width_pixels := width_pixels
    height_pixels := height_pixels
    fonts := []
    shaders := [vs]
    consoles := []
    fps := 0
    frame_time_ms := 0
    active_console := 0
    gl := gl0 }

/-- A platform window event as drained by `process_events`. The code
matches exactly one constructor, `FramebufferSize(width, height)`
(dimensions are `i32`); every other event kind falls into the `_ => {}`
arm and is modelled by the catch-all `other`. The `f64` timestamp glfw
attaches is discarded unread by the code and is not modelled. -/
inductive WindowEvent where
  | framebufferSize (width height : Int)
  | other (kind : Nat)
deriving DecidableEq, Repr

/-- One arm of the `match event` in `Rltk::process_events`: a
framebuffer-resize event sets the GL viewport to origin (0,0) and the
event's exact reported pixel dimensions; everything else is a no-op. -/
def processOneEvent {σ : Type} (s : Rltk σ) (e : WindowEvent) : Rltk σ :=
  match e with
  | .framebufferSize width height =>
      { s with gl := { viewport := (0, 0, width, height) } }
  | .other _ => s

/-- `Rltk::process_events`: drain every queued event in order, handling
each through the single `match`. -/
def process_events {σ : Type} (s : Rltk σ) (events : List WindowEvent) :
    Rltk σ :=
  events.foldl processOneEvent s

/-- `Rltk::register_font`: the GPU upload and texture bind are external
one-time effects on the font; the registry action is push-then-return
`len - 1`. -/
def register_font {σ : Type} (s : Rltk σ) (f : Font) : Rltk σ × Nat :=
  let fonts := s.fonts ++ [f]
  ({ s with fonts := fonts }, fonts.length - 1)

/-- `Rltk::register_console`: wrap the boxed surface with the caller's
`font_index` and the default `shader_index = 0`, push, return `len - 1`.
No validation of `font_index` happens here. -/
def register_console {σ : Type} (s : Rltk σ) (impl : ConsoleImpl σ)
    (surf : σ) (font_index : Nat) : Rltk σ × Nat :=
  let consoles := s.consoles ++
    [{ console_impl := impl, console_state := surf,
       font_index := font_index, shader_index := 0 }]
  ({ s with consoles := consoles }, consoles.length - 1)

/-- `Rltk::set_active_console`: stores `id` unconditionally. -/
def set_active_console {σ : Type} (s : Rltk σ) (id : Nat) : Rltk σ :=
  { s with active_console := id }

/-- Pass-through `Console::at` for `Rltk`:
`self.consoles[self.active_console].console.at(x, y)`. Out-of-range
`active_console` makes the slice index panic. -/
def Rltk.at' {σ : Type} (s : Rltk σ) (x y : Int) : Except Panic Nat :=
  match s.consoles.get? s.active_console with
  | some dc => .ok (dc.console_impl.at' dc.console_state x y)
  | none => .error (.indexOutOfBounds s.active_console s.consoles.length)

/-- Pass-through `Console::cls` for `Rltk`. -/
def Rltk.cls {σ : Type} (s : Rltk σ) : Except Panic (Rltk σ) :=
  match s.consoles.get? s.active_console with
  | some dc =>
    let dc' := { dc with console_state := dc.console_impl.cls dc.console_state }
    .ok { s with consoles := s.consoles.set s.active_console dc' }
  | none => .error (.indexOutOfBounds s.active_console s.consoles.length)

/-- Pass-through `Console::cls_bg` for `Rltk`. -/
def Rltk.cls_bg {σ : Type} (s : Rltk σ) (background : RGB) :
    Except Panic (Rltk σ) :=
  match s.consoles.get? s.active_console with
  | some dc =>
    let dc' := { dc with console_state :=
      dc.console_impl.cls_bg dc.console_state background }
    .ok { s with consoles := s.consoles.set s.active_console dc' }
  | none => .error (.indexOutOfBounds s.active_console s.consoles.length)

/-- Pass-through `Console::print` for `Rltk`. -/
def Rltk.print {σ : Type} (s : Rltk σ) (x y : Int) (output : String) :
    Except Panic (Rltk σ) :=
  match s.consoles.get? s.active_console with
  | some dc =>
    let dc' := { dc with console_state :=
      dc.console_impl.print dc.console_state x y output }
    .ok { s with consoles := s.consoles.set s.active_console dc' }
  | none => .error (.indexOutOfBounds s.active_console s.consoles.length)

/-- Pass-through `Console::print_color` for `Rltk`. -/
def Rltk.print_color {σ : Type} (s : Rltk σ) (x y : Int) (fg bg : RGB)
    (output : String) : Except Panic (Rltk σ) :=
  match s.consoles.get? s.active_console with
  | some dc =>
    let dc' := { dc with console_state :=
      dc.console_impl.print_color dc.console_state x y fg bg output }
    .ok { s with consoles := s.consoles.set s.active_console dc' }
  | none => .error (.indexOutOfBounds s.active_console s.consoles.length)

/-- The local variables of `Rltk::main_loop` that survive from one loop
iteration to the next: `prev_seconds`, `prev_ms` and the frame counter
`frames`. -/
structure LoopLocals where
  prev_seconds : Nat
  prev_ms : Nat
  frames : Nat
deriving DecidableEq, Repr

/-- Lines 99-106 of `main_loop`: `frames += 1`; then, if the whole-second
reading advanced past `prev_seconds`, recompute
`fps = frames as f32 / (now_seconds - prev_seconds) as f32`, zero the
frame counter and resample `prev_seconds`. -/
def fpsUpdate {σ : Type} (s : Rltk σ) (loc : LoopLocals)
    (now_seconds : Nat) : Rltk σ × LoopLocals :=
  let frames := loc.frames + 1
  if now_seconds > loc.prev_seconds then
    ({ s with fps :=
        ((frames : Rat) / ((now_seconds - loc.prev_seconds : Nat) : Rat)) },
     { loc with frames := 0, prev_seconds := now_seconds })
  else
    (s, { loc with frames := frames })

/-- Lines 108-112 of `main_loop`: if the whole-millisecond reading
advanced past `prev_ms`, set `frame_time_ms = (now_ms - prev_ms) as f32`
and resample `prev_ms`. -/
def msUpdate {σ : Type} (s : Rltk σ) (loc : LoopLocals) (now_ms : Nat) :
    Rltk σ × LoopLocals :=
  if now_ms > loc.prev_ms then
    ({ s with frame_time_ms := ((now_ms - loc.prev_ms : Nat) : Rat) },
     { loc with prev_ms := now_ms })
  else
    (s, loc)

/-- Lines 99-112 of `main_loop`: the whole timing block of one iteration.
`now_seconds` and `now_ms` are the two `now.elapsed()` readings the
iteration takes (the second reading happens after the first). -/
def timeStep {σ : Type} (s : Rltk σ) (loc : LoopLocals)
    (now_seconds now_ms : Nat) : Rltk σ × LoopLocals :=
  let (s1, loc1) := fpsUpdate s loc now_seconds
  msUpdate s1 loc1 now_ms

/-- One observable step of a `main_loop` iteration, in the order the body
performs them. A `draw` step records the console index together with the
font and shader the draw resolved from the registries at that moment. -/
inductive Step where
  | timeUpdate
  | processEventsStep
  | tickStep
  | rebuild (i : Nat)
  | clearScreen
  | draw (i : Nat) (font : Font) (shader : Shader)
  | swapBuffers
  | pollEvents
deriving DecidableEq, Repr

/-- The rebuild loop of `main_loop` (`for cons in self.consoles.iter_mut()
{ cons.console.rebuild_if_dirty(); }`) over the consoles from index `i`
on, returning the updated consoles and one `rebuild` step for each
console whose surface reported dirty (the invocations of
rebuild-geometry, in order). -/
def rebuildPhaseAux {σ : Type} (i : Nat) :
    List (DisplayConsole σ) → List (DisplayConsole σ) × List Step
  | [] => ([], [])
  | dc :: rest =>
    let dirty := dc.console_impl.is_dirty dc.console_state
    let dc' := { dc with console_state :=
      dc.console_impl.rebuild_if_dirty dc.console_state }
    let (rest', steps) := rebuildPhaseAux (i + 1) rest
    (dc' :: rest', (if dirty then [Step.rebuild i] else []) ++ steps)

/-- The draw loop of `main_loop` over the consoles from index `i` on:
for each console resolve `self.fonts[cons.font_index]` and
`self.shaders[cons.shader_index]` (slice indexing: an out-of-range index
panics) and call `gl_draw` on the surface, recording a `draw` step. -/
def drawPhaseAux {σ : Type} (fonts : List Font) (shaders : List Shader)
    (i : Nat) : List (DisplayConsole σ) →
    Except Panic (List (DisplayConsole σ) × List Step)
  | [] => .ok ([], [])
  | dc :: rest =>
    match fonts.get? dc.font_index with
    | none => .error (.indexOutOfBounds dc.font_index fonts.length)
    | some font =>
      match shaders.get? dc.shader_index with
      | none => .error (.indexOutOfBounds dc.shader_index shaders.length)
      | some shader =>
        let dc' := { dc with console_state :=
          dc.console_impl.gl_draw dc.console_state font shader }
        match drawPhaseAux fonts shaders (i + 1) rest with
        | .error p => .error p
        | .ok (rest', steps) =>
          .ok (dc' :: rest', Step.draw i font shader :: steps)

/-- The draw loop of `main_loop` on the whole host state. -/
def drawPhase {σ : Type} (s : Rltk σ) :
    Except Panic (Rltk σ × List Step) :=
  match drawPhaseAux s.fonts s.shaders 0 s.consoles with
  | .error p => .error p
  | .ok (consoles', steps) => .ok ({ s with consoles := consoles' }, steps)

/-- One full iteration of the `while !self.window.should_close()` body of
`Rltk::main_loop`: timing update, event draining, application tick,
rebuild of dirty consoles, framebuffer clear, draw of every console,
buffer swap and event poll. `tickFn` is the application's
`GameState::tick` (arbitrary mutation of the host through `&mut self`),
`events` the platform events queued for this frame. The returned trace
lists the steps in execution order; `gl::ClearColor`/`gl::Clear`, the
swap and the poll are external effects appearing only as steps. -/
def frameIteration {σ : Type} (tickFn : Rltk σ → Rltk σ)
    (now_seconds now_ms : Nat) (events : List WindowEvent) (s : Rltk σ)
    (loc : LoopLocals) : Except Panic (Rltk σ × LoopLocals × List Step) :=
  let (s1, loc1) := timeStep s loc now_seconds now_ms
  let s2 := process_events s1 events
  let s3 := tickFn s2
  let (consoles4, rebuildSteps) := rebuildPhaseAux 0 s3.consoles
  let s4 := { s3 with consoles := consoles4 }
  match drawPhase s4 with
  | .error p => .error p
  | .ok (s5, drawSteps) =>
    .ok (s5, loc1,
      [Step.timeUpdate, Step.processEventsStep, Step.tickStep]
        ++ rebuildSteps ++ [Step.clearScreen] ++ drawSteps
        ++ [Step.swapBuffers, Step.pollEvents])

/-- One registration call of the append-only registries: either a
`register_font` call or a `register_console` call. -/
inductive RegOp (σ : Type) where
  | font (f : Font)
  | console (impl : ConsoleImpl σ) (surf : σ) (font_index : Nat)

/-- Run a sequence of registration calls against the host, collecting the
indices the font registry returned and the indices the console registry
returned, each in call order. -/
def applyRegs {σ : Type} (s : Rltk σ) :
    List (RegOp σ) → Rltk σ × List Nat × List Nat
  | [] => (s, [], [])
  | .font f :: ops =>
    let r1 := register_font s f
    let rest := applyRegs r1.1 ops
    (rest.1, r1.2 :: rest.2.1, rest.2.2)
  | .console impl surf fi :: ops =>
    let r1 := register_console s impl surf fi
    let rest := applyRegs r1.1 ops
    (rest.1, rest.2.1, r1.2 :: rest.2.2)

/-- The fonts a registration sequence appends, in call order. -/
def regFonts {σ : Type} : List (RegOp σ) → List Font
  | [] => []
  | .font f :: ops => f :: regFonts ops
  | .console _ _ _ :: ops => regFonts ops

/-- The display consoles a registration sequence appends, in call order
(each wrapped with its caller-supplied font index and the default shader
index 0). -/
def regConsoles {σ : Type} : List (RegOp σ) → List (DisplayConsole σ)
  | [] => []
  | .font _ :: ops => regConsoles ops
  | .console impl surf fi :: ops => ⟨impl, surf, 0, fi⟩ :: regConsoles ops

/-- The surface update one pass of the rebuild loop applies to a display
console: `cons.console.rebuild_if_dirty()`. -/
def rebuildUpd {σ : Type} (dc : DisplayConsole σ) : DisplayConsole σ :=
  { dc with console_state :=
      dc.console_impl.rebuild_if_dirty dc.console_state }

/-- The rebuild step an indexed display console contributes to the frame
trace: a `rebuild` step exactly when its surface reports dirty. -/
def rebuildStepOf {σ : Type} (p : Nat × DisplayConsole σ) : Option Step :=
  if p.2.console_impl.is_dirty p.2.console_state then
    some (Step.rebuild p.1)
  else
    none

/-- The surface update one pass of the draw loop applies to a display
console, with the font and shader resolved from the registries at draw
time (the defaults are irrelevant: the draw loop panics before using
them when an index is out of range). -/
def drawUpd {σ : Type} (fonts : List Font) (shaders : List Shader)
    (dc : DisplayConsole σ) : DisplayConsole σ :=
  let font := (fonts.get? dc.font_index).getD ⟨0⟩
  let shader := (shaders.get? dc.shader_index).getD ⟨0⟩
  { dc with console_state :=
      dc.console_impl.gl_draw dc.console_state font shader }

/-- The draw step an indexed display console contributes to the frame
trace. -/
def drawStepOf {σ : Type} (fonts : List Font) (shaders : List Shader)
    (p : Nat × DisplayConsole σ) : Step :=
  Step.draw p.1 ((fonts.get? p.2.font_index).getD ⟨0⟩)
    ((shaders.get? p.2.shader_index).getD ⟨0⟩)

/-- One call recorded by the mock console surface used in the concrete
witnesses. -/
inductive LogCall where
  | atq (x y : Int)
  | clsCall
  | clsBgCall (background : RGB)
  | printCall (x y : Int) (output : String)
  | printColorCall (x y : Int) (fg bg : RGB) (output : String)
  | rebuilt
  | drawn (font : Font) (shader : Shader)
deriving DecidableEq, Repr

/-- Mock console surface: a dirty flag plus a log of received calls. -/
structure MockSurface where
  dirty : Bool
  log : List LogCall
deriving DecidableEq, Repr

/-- Mock `Console` implementation recording every call it receives. -/
def mockImpl : ConsoleImpl MockSurface :=
  { is_dirty := fun s => s.dirty
    rebuild_geometry := fun s => { dirty := false, log := s.log ++ [.rebuilt] }
    gl_draw := fun s f sh => { s with log := s.log ++ [.drawn f sh] }
    at' := fun s x y => s.log.length + x.natAbs + y.natAbs
    cls := fun s => { s with log := s.log ++ [.clsCall] }
    cls_bg := fun s b => { s with log := s.log ++ [.clsBgCall b] }
    print := fun s x y o => { s with log := s.log ++ [.printCall x y o] }
    print_color := fun s x y fg bg o =>
      { s with log := s.log ++ [.printColorCall x y fg bg o] } }

/-- A concrete host with two registered mock consoles (console 0 dirty,
console 1 clean), one font and the startup shader. -/
def twoConsoles : Rltk MockSurface :=
  { width_pixels := 640
    height_pixels := 400
    fonts := [⟨0⟩]
    shaders := [⟨0⟩]
    consoles :=
      [⟨mockImpl, ⟨true, []⟩, 0, 0⟩, ⟨mockImpl, ⟨false, []⟩, 0, 0⟩]
    fps := 0
    frame_time_ms := 0
    active_console := 0
    gl := ⟨(0, 0, 640, 400)⟩ }

/-- A concrete registration sequence used by the registry witnesses:
font, console, font. -/
def demoOps : List (RegOp MockSurface) :=
  [.font ⟨10⟩, .console mockImpl ⟨false, []⟩ 0, .font ⟨11⟩]

/-- A trivial application tick for the frame-iteration witness. -/
def demoTick : Rltk MockSurface → Rltk MockSurface := id

/-- The host state the rebuild step of the witness frame sees: after the
timing block (readings 1 s / 2 ms), an empty draining pass and the
trivial tick. -/
def demoS3 : Rltk MockSurface :=
  demoTick (process_events (timeStep twoConsoles ⟨0, 0, 0⟩ 1 2).1 [])

/-- The step trace the witness frame is expected to produce. -/
def demoTrace : List Step :=
  [Step.timeUpdate, Step.processEventsStep, Step.tickStep]
    ++ demoS3.consoles.enum.filterMap rebuildStepOf
    ++ [Step.clearScreen]
    ++ (demoS3.consoles.map rebuildUpd).enum.map
        (drawStepOf demoS3.fonts demoS3.shaders)
    ++ [Step.swapBuffers, Step.pollEvents]

/-- Helper: a single drained event can only change the `gl` field of the
host. -/
theorem processOneEvent_gl_only {σ : Type} (s : Rltk σ) (e : WindowEvent) :
    processOneEvent s e = { s with gl := (processOneEvent s e).gl } := by
  cases e <;> rfl

/-- Helper: a whole event-draining pass can only change the `gl` field of
the host. -/
theorem process_events_gl_only {σ : Type} (events : List WindowEvent)
    (s : Rltk σ) :
    process_events s events = { s with gl := (process_events s events).gl } := by
  induction events generalizing s with
  | nil => rfl
  | cons e rest ih =>
    cases e with
    | framebufferSize w h => exact ih (processOneEvent s (.framebufferSize w h))
    | other k => exact ih (processOneEvent s (.other k))

/-- Helper: event draining preserves `width_pixels`. -/
theorem process_events_width_pixels {σ : Type} (events : List WindowEvent)
    (s : Rltk σ) :
    (process_events s events).width_pixels = s.width_pixels := by
  conv_lhs => rw [process_events_gl_only events s]

/-- Helper: event draining preserves `height_pixels`. -/
theorem process_events_height_pixels {σ : Type} (events : List WindowEvent)
    (s : Rltk σ) :
    (process_events s events).height_pixels = s.height_pixels := by
  conv_lhs => rw [process_events_gl_only events s]

/-- Helper: folding event draining over the event lists of successive
frames preserves `width_pixels`. -/
theorem foldl_process_events_width {σ : Type}
    (framess : List (List WindowEvent)) (s : Rltk σ) :
    (framess.foldl process_events s).width_pixels = s.width_pixels := by
  induction framess generalizing s with
  | nil => rfl
  | cons evs rest ih =>
    rw [List.foldl_cons, ih, process_events_width_pixels]

/-- Helper: folding event draining over the event lists of successive
frames preserves `height_pixels`. -/
theorem foldl_process_events_height {σ : Type}
    (framess : List (List WindowEvent)) (s : Rltk σ) :
    (framess.foldl process_events s).height_pixels = s.height_pixels := by
  induction framess generalizing s with
  | nil => rfl
  | cons evs rest ih =>
    rw [List.foldl_cons, ih, process_events_height_pixels]

/-- C8: when event draining encounters a framebuffer-resize event it sets
the GL viewport exactly to the event's reported pixel dimensions with
origin (0,0) and no aspect-ratio adjustment; every other event kind
drained in the same pass leaves the host (including the viewport)
untouched; and a full draining pass ending in a resize leaves the
viewport at exactly that resize's dimensions. -/
theorem resize_sets_viewport_exactly :
    (∀ (σ : Type) (s : Rltk σ) (width height : Int),
      (processOneEvent s (.framebufferSize width height)).gl.viewport
        = (0, 0, width, height))
    ∧ (∀ (σ : Type) (s : Rltk σ) (kind : Nat),
      processOneEvent s (.other kind) = s)
    ∧ (∀ (σ : Type) (s : Rltk σ) (events : List WindowEvent)
        (width height : Int),
      (process_events s
          (events ++ [.framebufferSize width height])).gl.viewport
        = (0, 0, width, height)) := by
  refine ⟨fun σ s w h => rfl, fun σ s k => rfl, fun σ s evs w h => ?_⟩
  rw [process_events, List.foldl_append]
  rfl

/-- C10: processing framebuffer-resize events changes only the GL
viewport state: the host after any draining pass equals the host before
with only the `gl` field replaced, and in particular `width_pixels` and
`height_pixels` keep their construction-time values across every
sequence of drained event lists. -/
theorem process_events_preserves_pixel_fields :
    (∀ (σ : Type) (s : Rltk σ) (events : List WindowEvent),
      process_events s events
        = { s with gl := (process_events s events).gl })
    ∧ (∀ (σ : Type) (w h : Nat) (vs : Shader) (gl0 : GLState)
        (framess : List (List WindowEvent)),
      (framess.foldl process_events (init_raw σ w h vs gl0)).width_pixels = w
      ∧ (framess.foldl process_events
          (init_raw σ w h vs gl0)).height_pixels = h) := by
  refine ⟨fun σ s events => process_events_gl_only events s,
    fun σ w h vs gl0 framess => ⟨?_, ?_⟩⟩
  · rw [foldl_process_events_width]; rfl
  · rw [foldl_process_events_height]; rfl

/-- Helper: the timing block is the fps block followed by the ms block. -/
theorem timeStep_eq {σ : Type} (s : Rltk σ) (loc : LoopLocals)
    (now_seconds now_ms : Nat) :
    timeStep s loc now_seconds now_ms
      = msUpdate (fpsUpdate s loc now_seconds).1
          (fpsUpdate s loc now_seconds).2 now_ms := rfl

/-- Helper: branch behaviour of the fps block. -/
theorem fpsUpdate_spec {σ : Type} (s : Rltk σ) (loc : LoopLocals)
    (now_seconds : Nat) :
    (now_seconds > loc.prev_seconds →
      fpsUpdate s loc now_seconds
        = ({ s with fps := ((loc.frames + 1 : Nat) : Rat)
              / ((now_seconds - loc.prev_seconds : Nat) : Rat) },
           { loc with frames := 0, prev_seconds := now_seconds }))
    ∧ (¬ now_seconds > loc.prev_seconds →
      fpsUpdate s loc now_seconds
        = (s, { loc with frames := loc.frames + 1 })) := by
  constructor <;> intro h <;> simp [fpsUpdate, h]

/-- Helper: branch behaviour of the ms block. -/
theorem msUpdate_spec {σ : Type} (s : Rltk σ) (loc : LoopLocals)
    (now_ms : Nat) :
    (now_ms > loc.prev_ms →
      msUpdate s loc now_ms
        = ({ s with frame_time_ms := ((now_ms - loc.prev_ms : Nat) : Rat) },
           { loc with prev_ms := now_ms }))
    ∧ (¬ now_ms > loc.prev_ms → msUpdate s loc now_ms = (s, loc)) := by
  constructor <;> intro h <;> simp [msUpdate, h]

/-- Helper: the ms block never touches `fps`, `prev_seconds`, `frames`,
or `prev_ms` beyond its own resampling. -/
theorem msUpdate_fps_fields {σ : Type} (s : Rltk σ) (loc : LoopLocals)
    (now_ms : Nat) :
    (msUpdate s loc now_ms).1.fps = s.fps
    ∧ (msUpdate s loc now_ms).2.prev_seconds = loc.prev_seconds
    ∧ (msUpdate s loc now_ms).2.frames = loc.frames := by
  unfold msUpdate
  split <;> exact ⟨rfl, rfl, rfl⟩

/-- Helper: the fps block never touches `frame_time_ms` or `prev_ms`. -/
theorem fpsUpdate_ms_fields {σ : Type} (s : Rltk σ) (loc : LoopLocals)
    (now_seconds : Nat) :
    (fpsUpdate s loc now_seconds).1.frame_time_ms = s.frame_time_ms
    ∧ (fpsUpdate s loc now_seconds).2.prev_ms = loc.prev_ms := by
  unfold fpsUpdate
  split <;> exact ⟨rfl, rfl⟩

/-- C9: on each loop iteration, if the elapsed whole-millisecond reading
advanced past the `prev_ms` sample, `frame_time_ms` is set to the delta
between the two samples and the sample is resampled to the new reading;
otherwise `frame_time_ms` and the sample are left unchanged. -/
theorem frame_time_ms_delta_update :
    ∀ (σ : Type) (s : Rltk σ) (loc : LoopLocals) (now_seconds now_ms : Nat),
      (now_ms > loc.prev_ms →
        (timeStep s loc now_seconds now_ms).1.frame_time_ms
            = ((now_ms - loc.prev_ms : Nat) : Rat)
          ∧ (timeStep s loc now_seconds now_ms).2.prev_ms = now_ms)
      ∧ (¬ now_ms > loc.prev_ms →
        (timeStep s loc now_seconds now_ms).1.frame_time_ms
            = s.frame_time_ms
          ∧ (timeStep s loc now_seconds now_ms).2.prev_ms = loc.prev_ms) := by
  intro σ s loc ns nm
  have hms := fpsUpdate_ms_fields s loc ns
  constructor
  · intro h
    have h2 : nm > (fpsUpdate s loc ns).2.prev_ms := by rw [hms.2]; exact h
    have heq := (msUpdate_spec (fpsUpdate s loc ns).1
      (fpsUpdate s loc ns).2 nm).1 h2
    rw [timeStep_eq, heq, hms.2]
    exact ⟨rfl, rfl⟩
  · intro h
    have h2 : ¬ nm > (fpsUpdate s loc ns).2.prev_ms := by rw [hms.2]; exact h
    have heq := (msUpdate_spec (fpsUpdate s loc ns).1
      (fpsUpdate s loc ns).2 nm).2 h2
    rw [timeStep_eq, heq]
    exact ⟨hms.1, hms.2⟩

/-- C9 witness: at a concrete state, an advanced ms reading sets
`frame_time_ms` to the delta 5 - 2 = 3 and resamples `prev_ms`, while a
non-advanced reading leaves both unchanged. -/
theorem frame_time_ms_delta_update_witness :
    ((5 : Nat) > (2 : Nat)
      ∧ (timeStep twoConsoles ⟨0, 2, 0⟩ 0 5).1.frame_time_ms
          = ((5 - 2 : Nat) : Rat)
      ∧ (timeStep twoConsoles ⟨0, 2, 0⟩ 0 5).2.prev_ms = 5)
    ∧ (¬ (2 : Nat) > (2 : Nat)
      ∧ (timeStep twoConsoles ⟨0, 2, 0⟩ 0 2).1.frame_time_ms
          = twoConsoles.frame_time_ms
      ∧ (timeStep twoConsoles ⟨0, 2, 0⟩ 0 2).2.prev_ms = 2) := by
  constructor
  · have h := (frame_time_ms_delta_update MockSurface twoConsoles
      ⟨0, 2, 0⟩ 0 5).1 (by decide)
    exact ⟨by decide, h.1, h.2⟩
  · have h := (frame_time_ms_delta_update MockSurface twoConsoles
      ⟨0, 2, 0⟩ 0 2).2 (by decide)
    exact ⟨by decide, h.1, h.2⟩

/-- C4: `fps` is recomputed exactly when the whole-second reading
advanced past the `prev_seconds` sample; at a recomputation it equals
the frames counted since the previous sample (including the current
frame) divided by the whole-second delta, the frame counter is reset and
the sample resampled; when the reading has not advanced `fps` is
unchanged and the counter keeps counting; and a second timing step under
the same whole-second reading never changes `fps` again, so `fps` is
recomputed at most once per whole elapsed second. -/
theorem fps_recompute_once_per_second :
    ∀ (σ : Type) (s : Rltk σ) (loc : LoopLocals) (ns nm nm' : Nat),
      (ns > loc.prev_seconds →
        (timeStep s loc ns nm).1.fps
            = ((loc.frames + 1 : Nat) : Rat)
              / ((ns - loc.prev_seconds : Nat) : Rat)
          ∧ (timeStep s loc ns nm).2.frames = 0
          ∧ (timeStep s loc ns nm).2.prev_seconds = ns)
      ∧ (¬ ns > loc.prev_seconds →
        (timeStep s loc ns nm).1.fps = s.fps
          ∧ (timeStep s loc ns nm).2.frames = loc.frames + 1
          ∧ (timeStep s loc ns nm).2.prev_seconds = loc.prev_seconds)
      ∧ ((timeStep (timeStep s loc ns nm).1
            (timeStep s loc ns nm).2 ns nm').1.fps
          = (timeStep s loc ns nm).1.fps) := by
  intro σ s loc ns nm nm'
  have hkeep := msUpdate_fps_fields (fpsUpdate s loc ns).1
    (fpsUpdate s loc ns).2 nm
  refine ⟨?_, ?_, ?_⟩
  · intro h
    have heq := (fpsUpdate_spec s loc ns).1 h
    rw [timeStep_eq]
    rw [heq] at hkeep ⊢
    exact ⟨hkeep.1, hkeep.2.2, hkeep.2.1⟩
  · intro h
    have heq := (fpsUpdate_spec s loc ns).2 h
    rw [timeStep_eq]
    rw [heq] at hkeep ⊢
    exact ⟨hkeep.1, hkeep.2.2, hkeep.2.1⟩
  · have hprev : ¬ ns > (timeStep s loc ns nm).2.prev_seconds := by
      rw [timeStep_eq, hkeep.2.1]
      by_cases h : ns > loc.prev_seconds
      · rw [(fpsUpdate_spec s loc ns).1 h]
        exact lt_irrefl ns
      · rw [(fpsUpdate_spec s loc ns).2 h]
        exact h
    have heq2 := (fpsUpdate_spec (timeStep s loc ns nm).1
      (timeStep s loc ns nm).2 ns).2 hprev
    have hkeep2 := msUpdate_fps_fields
      (fpsUpdate (timeStep s loc ns nm).1 (timeStep s loc ns nm).2 ns).1
      (fpsUpdate (timeStep s loc ns nm).1 (timeStep s loc ns nm).2 ns).2 nm'
    rw [timeStep_eq (timeStep s loc ns nm).1, hkeep2.1, heq2]

/-- C4 witness: at a concrete state with 5 frames already counted and a
whole-second reading advancing from 0 to 2, `fps` becomes 6 / 2, the
counter resets and the sample advances; with a non-advancing reading
`fps` is unchanged; and a repeated step at the same second leaves `fps`
alone. -/
theorem fps_recompute_once_per_second_witness :
    ((2 : Nat) > (0 : Nat)
      ∧ (timeStep twoConsoles ⟨0, 0, 5⟩ 2 3).1.fps
          = ((5 + 1 : Nat) : Rat) / ((2 - 0 : Nat) : Rat)
      ∧ (timeStep twoConsoles ⟨0, 0, 5⟩ 2 3).2.frames = 0
      ∧ (timeStep twoConsoles ⟨0, 0, 5⟩ 2 3).2.prev_seconds = 2)
    ∧ (¬ (0 : Nat) > (0 : Nat)
      ∧ (timeStep twoConsoles ⟨0, 0, 5⟩ 0 3).1.fps = twoConsoles.fps)
    ∧ ((timeStep (timeStep twoConsoles ⟨0, 0, 5⟩ 2 3).1
          (timeStep twoConsoles ⟨0, 0, 5⟩ 2 3).2 2 4).1.fps
        = (timeStep twoConsoles ⟨0, 0, 5⟩ 2 3).1.fps) := by
  refine ⟨?_, ?_, ?_⟩
  · have h := (fps_recompute_once_per_second MockSurface twoConsoles
      ⟨0, 0, 5⟩ 2 3 4).1 (by decide)
    exact ⟨by decide, h.1, h.2.1, h.2.2⟩
  · have h := (fps_recompute_once_per_second MockSurface twoConsoles
      ⟨0, 0, 5⟩ 0 3 4).2.1 (by decide)
    exact ⟨by decide, h.1⟩
  · exact (fps_recompute_once_per_second MockSurface twoConsoles
      ⟨0, 0, 5⟩ 2 3 4).2.2

/-- C1 counterexample: with only 2 consoles registered,
`set_active_console(5)` itself succeeds (no bounds validation), but the
first subsequent pass-through use does not produce a recoverable
out-of-range error value: it hits the slice indexing panic
`index out of bounds` (a `Panic`, which unwinds and terminates the
thread — a crash), refuting the claim's "not a crash". It does not
silently default to console 0: no `ok` result is produced at all. -/
theorem set_active_console_oob_panic_cex :
    (set_active_console twoConsoles 5).active_console = 5
    ∧ Rltk.at' (set_active_console twoConsoles 5) 0 0
        = Except.error (Panic.indexOutOfBounds 5 2)
    ∧ Rltk.cls (set_active_console twoConsoles 5)
        = Except.error (Panic.indexOutOfBounds 5 2)
    ∧ Rltk.print (set_active_console twoConsoles 5) 0 0 "hi"
        = Except.error (Panic.indexOutOfBounds 5 2) :=
  ⟨rfl, rfl, rfl, rfl⟩

/-- C1 (amended): `set_active_console(id)` with an out-of-range `id`
succeeds without bounds validation, and the first subsequent
pass-through use panics with the defined index-out-of-bounds panic
(carrying the offending index and the registry length) — a crash of the
thread rather than a returned error value — and never silently defaults
to console 0. -/
theorem set_active_unvalidated_first_use_panics :
    ∀ (σ : Type) (s : Rltk σ) (id : Nat) (x y : Int) (fg bg : RGB)
      (output : String),
      (set_active_console s id).active_console = id
      ∧ (s.consoles.length ≤ id →
          Rltk.at' (set_active_console s id) x y
              = .error (.indexOutOfBounds id s.consoles.length)
          ∧ Rltk.cls (set_active_console s id)
              = .error (.indexOutOfBounds id s.consoles.length)
          ∧ Rltk.cls_bg (set_active_console s id) bg
              = .error (.indexOutOfBounds id s.consoles.length)
          ∧ Rltk.print (set_active_console s id) x y output
              = .error (.indexOutOfBounds id s.consoles.length)
          ∧ Rltk.print_color (set_active_console s id) x y fg bg output
              = .error (.indexOutOfBounds id s.consoles.length)) := by
  intro σ s id x y fg bg output
  refine ⟨rfl, fun h => ?_⟩
  have hnone : s.consoles[id]? = none := List.getElem?_eq_none h
  refine ⟨?_, ?_, ?_, ?_, ?_⟩ <;>
    simp [Rltk.at', Rltk.cls, Rltk.cls_bg, Rltk.print, Rltk.print_color,
      set_active_console, hnone]

/-- C1 witness: the amended claim applied at the concrete 2-console host
with id = 5. -/
theorem set_active_unvalidated_first_use_panics_witness :
    twoConsoles.consoles.length ≤ 5
    ∧ ((set_active_console twoConsoles 5).active_console = 5
      ∧ Rltk.at' (set_active_console twoConsoles 5) 1 2
          = .error (.indexOutOfBounds 5 twoConsoles.consoles.length)) := by
  have h := set_active_unvalidated_first_use_panics MockSurface twoConsoles
    5 1 2 ⟨0⟩ ⟨1⟩ "hi"
  exact ⟨by decide, h.1, (h.2 (by decide)).1⟩

/-- C6: `register_console` appends a display console wrapping the given
surface with the caller's font index and the default shader index 0 (the
first — and at startup only — registered shader), returning the new
index, with no validation of `font_index`; an out-of-range `font_index`
is discovered only at draw time, where it surfaces as the defined
index-out-of-bounds panic value (not undefined memory access). -/
theorem register_console_unvalidated_font_index :
    ∀ (σ : Type) (s : Rltk σ) (impl : ConsoleImpl σ) (surf : σ)
      (font_index : Nat),
      ((register_console s impl surf font_index).1.consoles
          = s.consoles ++ [⟨impl, surf, 0, font_index⟩]
        ∧ (register_console s impl surf font_index).2 = s.consoles.length
        ∧ (register_console s impl surf font_index).1.fonts = s.fonts
        ∧ (register_console s impl surf font_index).1.shaders = s.shaders)
      ∧ (∀ (w h : Nat) (vs : Shader) (gl0 : GLState),
          (init_raw σ w h vs gl0).shaders.get? 0 = some vs)
      ∧ (s.consoles = [] → s.fonts.length ≤ font_index →
          drawPhase (register_console s impl surf font_index).1
            = .error (.indexOutOfBounds font_index s.fonts.length)) := by
  intro σ s impl surf font_index
  refine ⟨⟨rfl, by simp [register_console], rfl, rfl⟩,
    fun w h vs gl0 => rfl, fun hempty hoob => ?_⟩
  have hnone : s.fonts[font_index]? = none := List.getElem?_eq_none hoob
  simp [drawPhase, register_console, hempty, drawPhaseAux, hnone]

/-- C6 witness: registering a console with the out-of-range font index 3
into a host with 1 font and no consoles succeeds with the default shader
index 0, and the draw phase then panics with the defined
index-out-of-bounds value (3, 1). -/
theorem register_console_unvalidated_font_index_witness :
    (init_raw MockSurface 640 400 ⟨0⟩ ⟨(0, 0, 640, 400)⟩).consoles = []
    ∧ (init_raw MockSurface 640 400 ⟨0⟩
        ⟨(0, 0, 640, 400)⟩).fonts.length ≤ 3
    ∧ ((register_console (init_raw MockSurface 640 400 ⟨0⟩
          ⟨(0, 0, 640, 400)⟩) mockImpl ⟨false, []⟩ 3).1.consoles
        = (init_raw MockSurface 640 400 ⟨0⟩ ⟨(0, 0, 640, 400)⟩).consoles
            ++ [⟨mockImpl, ⟨false, []⟩, 0, 3⟩]
      ∧ drawPhase (register_console (init_raw MockSurface 640 400 ⟨0⟩
          ⟨(0, 0, 640, 400)⟩) mockImpl ⟨false, []⟩ 3).1
        = .error (.indexOutOfBounds 3
            (init_raw MockSurface 640 400 ⟨0⟩
              ⟨(0, 0, 640, 400)⟩).fonts.length)) := by
  have h := register_console_unvalidated_font_index MockSurface
    (init_raw MockSurface 640 400 ⟨0⟩ ⟨(0, 0, 640, 400)⟩)
    mockImpl ⟨false, []⟩ 3
  exact ⟨rfl, by decide, h.1.1, h.2.2 rfl (by decide)⟩

/-- C3: for every valid index `id` and every pass-through operation,
`set_active_console(id)` followed by the operation on the host forwards
exactly that operation, with unmodified arguments, to the surface
wrapped by `consoles[id]`: the query `at` returns the wrapped surface's
own answer, and each mutating operation replaces exactly the surface of
`consoles[id]` by the surface's own method applied to the same
arguments, leaving every other field of the host (and every other
console) unchanged. -/
theorem passthrough_forwards_to_active :
    ∀ (σ : Type) (s : Rltk σ) (id : Nat) (x y : Int) (fg bg : RGB)
      (output : String) (dc : DisplayConsole σ),
      s.consoles[id]? = some dc →
      Rltk.at' (set_active_console s id) x y
          = .ok (dc.console_impl.at' dc.console_state x y)
      ∧ Rltk.cls (set_active_console s id)
          = .ok { s with
                  active_console := id
                  consoles := s.consoles.set id
                    ({ dc with console_state :=
                        dc.console_impl.cls dc.console_state }) }
      ∧ Rltk.cls_bg (set_active_console s id) bg
          = .ok { s with
                  active_console := id
                  consoles := s.consoles.set id
                    ({ dc with console_state :=
                        dc.console_impl.cls_bg dc.console_state bg }) }
      ∧ Rltk.print (set_active_console s id) x y output
          = .ok { s with
                  active_console := id
                  consoles := s.consoles.set id
                    ({ dc with console_state :=
                        dc.console_impl.print dc.console_state x y output }) }
      ∧ Rltk.print_color (set_active_console s id) x y fg bg output
          = .ok { s with
                  active_console := id
                  consoles := s.consoles.set id
                    ({ dc with console_state := dc.console_impl.print_color dc.console_state x y fg bg output }) } := by
  intro σ s id x y fg bg output dc hget
  refine ⟨?_, ?_, ?_, ?_, ?_⟩ <;>
    simp [Rltk.at', Rltk.cls, Rltk.cls_bg, Rltk.print, Rltk.print_color,
      set_active_console, hget]

/-- C3 witness: the forwarding claim applied at the concrete 2-console
host with id = 1 and `print(2, 3, "hi")`; the wrapped mock surface ends
up having received exactly that call with those arguments. -/
theorem passthrough_forwards_to_active_witness :
    twoConsoles.consoles[1]? = some ⟨mockImpl, ⟨false, []⟩, 0, 0⟩
    ∧ Rltk.print (set_active_console twoConsoles 1) 2 3 "hi"
        = .ok { twoConsoles with
                active_console := 1
                consoles := twoConsoles.consoles.set 1
                  ({ console_impl := mockImpl
                     console_state := mockImpl.print ⟨false, []⟩ 2 3 "hi"
                     shader_index := 0
                     font_index := 0 }) }
    ∧ mockImpl.print ⟨false, []⟩ 2 3 "hi"
        = ⟨false, [.printCall 2 3 "hi"]⟩ := by
  have h := passthrough_forwards_to_active MockSurface twoConsoles 1 2 3
    ⟨0⟩ ⟨1⟩ "hi" ⟨mockImpl, ⟨false, []⟩, 0, 0⟩ rfl
  exact ⟨rfl, h.2.2.2.1, rfl⟩

/-- Helper: mapping an addition over `range (n+1)` peels off its head. -/
theorem range_map_add_succ (nf n : Nat) :
    (List.range (n + 1)).map (nf + ·)
      = nf :: (List.range n).map ((nf + 1) + ·) := by
  rw [List.range_succ_eq_map, List.map_cons, List.map_map]
  have h2 : ((nf + ·) ∘ Nat.succ) = ((nf + 1) + · : Nat → Nat) := by
    funext k
    simp [Function.comp]
    omega
  rw [h2, Nat.add_zero]

/-- Helper: full characterization of a registration sequence. The final
state appends exactly the registered fonts and consoles (all other
fields, the shader registry included, unchanged), the font registry
returns the indices `s.fonts.length, s.fonts.length + 1, ...` in call
order, and the console registry likewise from `s.consoles.length`. -/
theorem applyRegs_spec {σ : Type} (ops : List (RegOp σ)) :
    ∀ s : Rltk σ,
      applyRegs s ops
        = ({ s with
             fonts := s.fonts ++ regFonts ops
             consoles := s.consoles ++ regConsoles ops },
           (List.range (regFonts ops).length).map (s.fonts.length + ·),
           (List.range (regConsoles ops).length).map
             (s.consoles.length + ·)) := by
  induction ops with
  | nil =>
    intro s
    simp [applyRegs, regFonts, regConsoles]
  | cons op rest ih =>
    intro s
    cases op with
    | font f =>
      simp only [applyRegs, register_font, regFonts, regConsoles]
      rw [ih]
      simp [range_map_add_succ, List.append_assoc]
    | console impl surf fi =>
      simp only [applyRegs, register_console, regFonts, regConsoles]
      rw [ih]
      simp [range_map_add_succ, List.append_assoc]

/-- C5: for every sequence of `register_font` / `register_console` calls
against any starting state, the indices each registry returns are the
consecutive integers from that registry's current length (from a fresh
`init_raw` host: starting at 0), strictly increasing and never reused;
both registries are append-only (and the shader registry is untouched),
so an index once returned always resolves to the same entry. -/
theorem register_indices_sequential_append_only :
    ∀ (σ : Type) (s : Rltk σ) (ops : List (RegOp σ)),
      ((applyRegs s ops).2.1
          = (List.range (regFonts ops).length).map (s.fonts.length + ·)
        ∧ (applyRegs s ops).2.2
          = (List.range (regConsoles ops).length).map
              (s.consoles.length + ·))
      ∧ ((applyRegs s ops).2.1.Pairwise (· < ·)
        ∧ (applyRegs s ops).2.2.Pairwise (· < ·))
      ∧ (∀ (w h : Nat) (vs : Shader) (gl0 : GLState),
          (applyRegs (init_raw σ w h vs gl0) ops).2.1
              = List.range (regFonts ops).length
            ∧ (applyRegs (init_raw σ w h vs gl0) ops).2.2
              = List.range (regConsoles ops).length)
      ∧ ((applyRegs s ops).1.fonts = s.fonts ++ regFonts ops
        ∧ (applyRegs s ops).1.consoles = s.consoles ++ regConsoles ops
        ∧ (applyRegs s ops).1.shaders = s.shaders)
      ∧ (∀ (i : Nat) (f : Font), s.fonts.get? i = some f →
          (applyRegs s ops).1.fonts.get? i = some f)
      ∧ (∀ (i : Nat) (dc : DisplayConsole σ), s.consoles.get? i = some dc →
          (applyRegs s ops).1.consoles.get? i = some dc) := by
  intro σ s ops
  have hspec := applyRegs_spec ops s
  refine ⟨⟨?_, ?_⟩, ⟨?_, ?_⟩, fun w h vs gl0 => ⟨?_, ?_⟩,
    ⟨?_, ?_, ?_⟩, ?_, ?_⟩
  · rw [hspec]
  · rw [hspec]
  · rw [hspec]
    exact List.Pairwise.map _ (fun a b hab => by omega)
      (List.pairwise_lt_range _)
  · rw [hspec]
    exact List.Pairwise.map _ (fun a b hab => by omega)
      (List.pairwise_lt_range _)
  · rw [applyRegs_spec ops (init_raw σ w h vs gl0)]
    simp [init_raw]
  · rw [applyRegs_spec ops (init_raw σ w h vs gl0)]
    simp [init_raw]
  · rw [hspec]
  · rw [hspec]
  · rw [hspec]
  · intro i f hif
    rw [hspec]
    have hlt : i < s.fonts.length := (List.get?_eq_some.mp hif).1
    show (s.fonts ++ regFonts ops).get? i = some f
    rw [List.get?_append hlt]
    exact hif
  · intro i dc hidc
    rw [hspec]
    have hlt : i < s.consoles.length := (List.get?_eq_some.mp hidc).1
    show (s.consoles ++ regConsoles ops).get? i = some dc
    rw [List.get?_append hlt]
    exact hidc

/-- C5 witness: running the font/console/font demo sequence against the
concrete 2-console host (1 font registered) returns font indices [1, 2]
and console index [2], and the pre-existing font at index 0 still
resolves to the same entry afterwards. -/
theorem register_indices_sequential_append_only_witness :
    ((applyRegs twoConsoles demoOps).2.1
        = (List.range (regFonts demoOps).length).map
            (twoConsoles.fonts.length + ·)
      ∧ (applyRegs twoConsoles demoOps).2.1 = [1, 2]
      ∧ (applyRegs twoConsoles demoOps).2.2 = [2])
    ∧ (twoConsoles.fonts.get? 0 = some ⟨0⟩
      ∧ (applyRegs twoConsoles demoOps).1.fonts.get? 0 = some ⟨0⟩) := by
  have h := register_indices_sequential_append_only MockSurface
    twoConsoles demoOps
  refine ⟨⟨h.1.1, by decide, by decide⟩, rfl, ?_⟩
  exact h.2.2.2.2.1 0 ⟨0⟩ rfl

/-- Helper: under in-range font and shader indices, the draw loop
succeeds, updates every console surface through its own `gl_draw`, and
emits one draw step per console, in list order, with the resources
resolved from the registries. -/
theorem drawPhaseAux_ok {σ : Type} (fonts : List Font)
    (shaders : List Shader) :
    ∀ (cs : List (DisplayConsole σ)) (i : Nat),
      (∀ dc ∈ cs, dc.font_index < fonts.length
        ∧ dc.shader_index < shaders.length) →
      drawPhaseAux fonts shaders i cs
        = .ok (cs.map (drawUpd fonts shaders),
            (List.enumFrom i cs).map (drawStepOf fonts shaders)) := by
  intro cs
  induction cs with
  | nil => intro i h; rfl
  | cons dc rest ih =>
    intro i h
    obtain ⟨hf, hs⟩ := h dc (List.mem_cons_self dc rest)
    cases hfx : fonts.get? dc.font_index with
    | none =>
      exfalso
      rw [List.get?_eq_none] at hfx
      omega
    | some font =>
      cases hsx : shaders.get? dc.shader_index with
      | none =>
        exfalso
        rw [List.get?_eq_none] at hsx
        omega
      | some shader =>
        have hrest := ih (i + 1)
          (fun d hd => h d (List.mem_cons_of_mem dc hd))
        have hfx' : fonts[dc.font_index]? = some font := by
          rw [← List.get?_eq_getElem?]
          exact hfx
        have hsx' : shaders[dc.shader_index]? = some shader := by
          rw [← List.get?_eq_getElem?]
          exact hsx
        simp only [drawPhaseAux, hfx, hsx, hrest]
        simp [drawUpd, drawStepOf, hfx', hsx']

/-- C7: on a host whose consoles all carry in-range font and shader
indices, the draw phase draws the registered consoles exactly in
registration (list) order — the trace is the enumeration of the console
list — and each console is drawn with the font and shader resolved from
its stored `font_index` / `shader_index` against the registries at draw
time; the k-th trace entry draws console k with those resolved
resources. -/
theorem draw_order_is_registration_order :
    ∀ (σ : Type) (s : Rltk σ),
      (∀ dc ∈ s.consoles, dc.font_index < s.fonts.length
        ∧ dc.shader_index < s.shaders.length) →
      drawPhase s
          = .ok ({ s with consoles :=
                s.consoles.map (drawUpd s.fonts s.shaders) },
              s.consoles.enum.map (drawStepOf s.fonts s.shaders))
      ∧ (∀ (k : Nat) (dc : DisplayConsole σ), s.consoles[k]? = some dc →
          (s.consoles.enum.map (drawStepOf s.fonts s.shaders))[k]?
            = some (Step.draw k ((s.fonts.get? dc.font_index).getD ⟨0⟩)
                ((s.shaders.get? dc.shader_index).getD ⟨0⟩))) := by
  intro σ s h
  constructor
  · rw [drawPhase, drawPhaseAux_ok s.fonts s.shaders s.consoles 0 h]
    rfl
  · intro k dc hk
    simp [List.getElem?_map, List.getElem?_enum, hk, drawStepOf]

/-- C7 witness: on the concrete 2-console host the draw phase succeeds
and the trace draws console 0 then console 1, each with the font and
shader resolved from the registries. -/
theorem draw_order_is_registration_order_witness :
    (∀ dc ∈ twoConsoles.consoles,
      dc.font_index < twoConsoles.fonts.length
        ∧ dc.shader_index < twoConsoles.shaders.length)
    ∧ drawPhase twoConsoles
        = .ok ({ twoConsoles with consoles :=
              twoConsoles.consoles.map (drawUpd twoConsoles.fonts twoConsoles.shaders) },
            twoConsoles.consoles.enum.map (drawStepOf twoConsoles.fonts twoConsoles.shaders))
    ∧ twoConsoles.consoles.enum.map (drawStepOf twoConsoles.fonts twoConsoles.shaders)
      = [Step.draw 0 ⟨0⟩ ⟨0⟩, Step.draw 1 ⟨0⟩ ⟨0⟩] := by
  have hvalid : ∀ dc ∈ twoConsoles.consoles,
      dc.font_index < twoConsoles.fonts.length
        ∧ dc.shader_index < twoConsoles.shaders.length := by decide
  have h := draw_order_is_registration_order MockSurface twoConsoles hvalid
  exact ⟨hvalid, h.1, by decide⟩

/-- Helper: the rebuild loop updates every console surface through
`rebuild_if_dirty` and emits one rebuild step per dirty console, in list
order. -/
theorem rebuildPhaseAux_spec {σ : Type} :
    ∀ (cs : List (DisplayConsole σ)) (i : Nat),
      rebuildPhaseAux i cs
        = (cs.map rebuildUpd,
           (List.enumFrom i cs).filterMap rebuildStepOf) := by
  intro cs
  induction cs with
  | nil => intro i; rfl
  | cons dc rest ih =>
    intro i
    simp only [rebuildPhaseAux, ih (i + 1), List.map_cons,
      List.enumFrom_cons, List.filterMap_cons]
    by_cases hd : dc.console_impl.is_dirty dc.console_state
    · simp [hd, rebuildUpd, rebuildStepOf]
    · simp [hd, rebuildUpd, rebuildStepOf]

/-- Helper: one-step unfolding of the frame iteration into its phases. -/
theorem frameIteration_eq {σ : Type} (tickFn : Rltk σ → Rltk σ)
    (now_seconds now_ms : Nat) (events : List WindowEvent) (s : Rltk σ)
    (loc : LoopLocals) :
    frameIteration tickFn now_seconds now_ms events s loc
      = (let s3 := tickFn (process_events
            (timeStep s loc now_seconds now_ms).1 events)
         let r := rebuildPhaseAux 0 s3.consoles
         match drawPhase { s3 with consoles := r.1 } with
         | .error p => .error p
         | .ok (s5, drawSteps) =>
           .ok (s5, (timeStep s loc now_seconds now_ms).2,
             [Step.timeUpdate, Step.processEventsStep, Step.tickStep]
               ++ r.2 ++ [Step.clearScreen] ++ drawSteps
               ++ [Step.swapBuffers, Step.pollEvents])) := rfl

/-- C2: one iteration of the `Running` loop performs, in exactly this
order: the timing update (fps and frame_time_ms), event draining, the
application tick, one rebuild per console that reports dirty at the
rebuild step (in console order), the framebuffer clear, one draw per
console (in console order, with resources resolved at draw time), then
buffer swap and event poll; in particular a console's rebuild step
appears in the trace exactly when its surface was dirty at the rebuild
step, and strictly before that console's draw step of the same frame.
`s3` abbreviates the host state the rebuild step sees (after timing,
draining and tick). -/
theorem frame_iteration_step_order :
    ∀ (σ : Type) (tickFn : Rltk σ → Rltk σ) (now_seconds now_ms : Nat)
      (events : List WindowEvent) (s : Rltk σ) (loc : LoopLocals)
      (s3 : Rltk σ),
      s3 = tickFn (process_events
        (timeStep s loc now_seconds now_ms).1 events) →
      (∀ dc ∈ s3.consoles, dc.font_index < s3.fonts.length
        ∧ dc.shader_index < s3.shaders.length) →
      ∀ trace : List Step,
        trace = [Step.timeUpdate, Step.processEventsStep, Step.tickStep]
            ++ s3.consoles.enum.filterMap rebuildStepOf
            ++ [Step.clearScreen]
            ++ (s3.consoles.map rebuildUpd).enum.map
                (drawStepOf s3.fonts s3.shaders)
            ++ [Step.swapBuffers, Step.pollEvents] →
        (frameIteration tickFn now_seconds now_ms events s loc
            = .ok ({ s3 with consoles :=
                  (s3.consoles.map rebuildUpd).map (drawUpd s3.fonts s3.shaders) },
                (timeStep s loc now_seconds now_ms).2, trace))
        ∧ (∀ (k : Nat) (dc : DisplayConsole σ), s3.consoles[k]? = some dc →
            (Step.rebuild k ∈ trace
              ↔ dc.console_impl.is_dirty dc.console_state = true))
        ∧ (∀ k : Nat, Step.rebuild k ∈ trace →
            ∃ (l1 l2 l3 : List Step) (f : Font) (sh : Shader),
              trace = l1 ++ Step.rebuild k :: l2
                ++ Step.draw k f sh :: l3) := by
  intro σ tickFn ns nm events s loc s3 hs3 hvalid trace htrace
  have hvalid' : ∀ dc ∈ s3.consoles.map rebuildUpd,
      dc.font_index < s3.fonts.length
        ∧ dc.shader_index < s3.shaders.length := by
    intro dc hdc
    obtain ⟨d0, hd0, hmap⟩ := List.mem_map.mp hdc
    rw [← hmap]
    exact hvalid d0 hd0
  have hdp : drawPhase { s3 with consoles := s3.consoles.map rebuildUpd }
      = .ok ({ s3 with consoles :=
            (s3.consoles.map rebuildUpd).map (drawUpd s3.fonts s3.shaders) },
          ((s3.consoles.map rebuildUpd).enum).map
            (drawStepOf s3.fonts s3.shaders)) := by
    show (match drawPhaseAux s3.fonts s3.shaders 0
        (s3.consoles.map rebuildUpd) with
      | Except.error p => Except.error p
      | Except.ok (consoles', steps) =>
        Except.ok ({ s3 with consoles := consoles' }, steps)) = _
    rw [drawPhaseAux_ok s3.fonts s3.shaders (s3.consoles.map rebuildUpd)
      0 hvalid']
    rfl
  have hmemR : ∀ k : Nat, Step.rebuild k ∈ trace
      ↔ Step.rebuild k ∈ s3.consoles.enum.filterMap rebuildStepOf := by
    intro k
    rw [htrace]
    simp [List.mem_append, drawStepOf]
  refine ⟨?_, ?_, ?_⟩
  · rw [frameIteration_eq, ← hs3]
    simp only [rebuildPhaseAux_spec]
    rw [hdp, htrace]
    rfl
  · intro k dc hk
    rw [hmemR k]
    simp only [List.mem_filterMap]
    constructor
    · rintro ⟨⟨j, d⟩, hmem, heq⟩
      simp only [rebuildStepOf] at heq
      by_cases hd : d.console_impl.is_dirty d.console_state
      · rw [if_pos hd] at heq
        cases Step.rebuild.inj (Option.some.inj heq)
        have hget := List.mk_mem_enum_iff_getElem?.mp hmem
        rw [hk] at hget
        rw [Option.some.inj hget]
        exact hd
      · rw [if_neg hd] at heq
        exact absurd heq (Option.noConfusion)
    · intro hd
      refine ⟨(k, dc), List.mk_mem_enum_iff_getElem?.mpr hk, ?_⟩
      simp [rebuildStepOf, hd]
  · intro k hkmem
    have hmemF := (hmemR k).mp hkmem
    obtain ⟨⟨j, d⟩, hmem, heq⟩ := List.mem_filterMap.mp hmemF
    simp only [rebuildStepOf] at heq
    by_cases hd : d.console_impl.is_dirty d.console_state
    · rw [if_pos hd] at heq
      cases Step.rebuild.inj (Option.some.inj heq)
      have hget : s3.consoles[k]? = some d :=
        List.mk_mem_enum_iff_getElem?.mp hmem
      obtain ⟨r1, r2, hRsplit⟩ := List.append_of_mem hmemF
      have hget2 : (s3.consoles.map rebuildUpd)[k]?
          = some (rebuildUpd d) := by
        simp [List.getElem?_map, hget]
      have henum : (k, rebuildUpd d) ∈ (s3.consoles.map rebuildUpd).enum :=
        List.mk_mem_enum_iff_getElem?.mpr hget2
      have hdmem := List.mem_map_of_mem
        (drawStepOf s3.fonts s3.shaders) henum
      obtain ⟨d1, d2, hDsplit⟩ := List.append_of_mem hdmem
      refine ⟨[Step.timeUpdate, Step.processEventsStep, Step.tickStep]
          ++ r1,
        r2 ++ [Step.clearScreen] ++ d1,
        d2 ++ [Step.swapBuffers, Step.pollEvents],
        (s3.fonts.get? (rebuildUpd d).font_index).getD ⟨0⟩,
        (s3.shaders.get? (rebuildUpd d).shader_index).getD ⟨0⟩, ?_⟩
      rw [htrace, hRsplit, hDsplit]
      simp [drawStepOf, List.append_assoc]
    · rw [if_neg hd] at heq
      exact absurd heq (Option.noConfusion)

/-- C2 witness: the step-order claim applied at a concrete frame of the
2-console host (console 0 dirty, console 1 clean): the iteration
succeeds with the trace time, drain, tick, rebuild 0, clear, draw 0,
draw 1, swap, poll; rebuild steps appear exactly for the dirty console;
and the rebuild of console 0 precedes its draw. -/
theorem frame_iteration_step_order_witness :
    (∀ dc ∈ demoS3.consoles, dc.font_index < demoS3.fonts.length
      ∧ dc.shader_index < demoS3.shaders.length)
    ∧ frameIteration demoTick 1 2 [] twoConsoles ⟨0, 0, 0⟩
        = .ok ({ demoS3 with consoles :=
              (demoS3.consoles.map rebuildUpd).map (drawUpd demoS3.fonts demoS3.shaders) },
            (timeStep twoConsoles ⟨0, 0, 0⟩ 1 2).2, demoTrace)
    ∧ demoTrace = [Step.timeUpdate, Step.processEventsStep, Step.tickStep,
        Step.rebuild 0, Step.clearScreen, Step.draw 0 ⟨0⟩ ⟨0⟩,
        Step.draw 1 ⟨0⟩ ⟨0⟩, Step.swapBuffers, Step.pollEvents]
    ∧ (Step.rebuild 0 ∈ demoTrace
        ↔ mockImpl.is_dirty ⟨true, []⟩ = true)
    ∧ (Step.rebuild 1 ∈ demoTrace
        ↔ mockImpl.is_dirty ⟨false, []⟩ = true)
    ∧ (∃ (l1 l2 l3 : List Step) (f : Font) (sh : Shader),
        demoTrace = l1 ++ Step.rebuild 0 :: l2 ++ Step.draw 0 f sh :: l3) := by
  have hvalid : ∀ dc ∈ demoS3.consoles,
      dc.font_index < demoS3.fonts.length
        ∧ dc.shader_index < demoS3.shaders.length := by decide
  have h := frame_iteration_step_order MockSurface demoTick 1 2 []
    twoConsoles ⟨0, 0, 0⟩ demoS3 rfl hvalid demoTrace rfl
  refine ⟨hvalid, h.1, by decide, ?_, ?_, h.2.2 0 (by decide)⟩
  · exact h.2.1 0 ⟨mockImpl, ⟨true, []⟩, 0, 0⟩ rfl
  · exact h.2.1 1 ⟨mockImpl, ⟨false, []⟩, 0, 0⟩ rfl

end RltkSpec
